import Mathlib

/-!
Shallow embedding of the `mbr` Go package (rekby/mbr): the 512-byte MBR
partition-table model, its validator `Check`, signature fixing, read/write
over a bounded byte source, and the GPT protective-MBR builder
`MakeProtective`.  Bytes are modelled as natural numbers; the table buffer
is the Go byte slice `MBR.bytes`, 512 entries long.  Machine integers
(`uint32`, `uint64`) are modelled as `Nat` with explicit `% 2^64` where Go
wraparound matters.  A Go `panic` (in `GetLBALast`) is modelled as `none`,
and functions that mutate the receiver and may return an error are modelled
as returning the new table paired with an `Option MBRError`.
-/

namespace MbrSpec

set_option maxRecDepth 40000

/-- Error values of the mbr package (the `errors.New` sentinels), plus two
read-side values: `ioEOF` models the `io.EOF` sentinel a bounded byte source
returns from `Read` when it is already empty, and `shortRead` stands for the
short-read error kind named by the specification — no function of the code
ever produces it (see the C5 theorem). -/
inductive MBRError where
  | badMbrSign
  | partitionsIntersection
  | partitionLastSectorHigh
  | partitionBootFlag
  | diskSizeNotEvenSectors
  | invalidProtectiveType
  | shortRead
  | ioEOF
deriving DecidableEq

/-- The `MBR` struct: it owns the raw 512-byte sector image. -/
structure MBR where
  bytes : List Nat
deriving DecidableEq

def mbrFirstPartEntryOffset : Nat := 446
def mbrPartEntrySize : Nat := 16
def mbrSize : Nat := 512
def mbrSignOffset : Nat := 510

def partitionBootableOffset : Nat := 0
def partitionTypeOffset : Nat := 4
def partitionLBAStartOffset : Nat := 8
def partitionLBALengthOffset : Nat := 12

def partitionNumFirst : Nat := 1
def partitionNumLast : Nat := 4
def partitionBootableValue : Nat := 0x80
def partitionNonBootableValue : Nat := 0

def PART_EMPTY : Nat := 0
def PART_HYBRID_GPT : Nat := 0xED
def PART_GPT : Nat := 0xEE

/-- `ProtectiveType` constant `DiskSize = 1`. -/
def DiskSizeType : Int := 1
/-- `ProtectiveType` constant `MaxSize = 2`. -/
def MaxSizeType : Int := 2
/-- `ProtectiveType` constant `DefaultProtective = 0`. -/
def DefaultProtectiveType : Int := 0

/-- Read byte `i` of the table buffer (out of range reads give 0; the Go
code always works on a 512-byte slice, so indices used are in range). -/
def getByte (t : MBR) (i : Nat) : Nat := t.bytes.getD i 0

/-- Write byte `i` of the table buffer (in-place slice store). -/
def setByte (t : MBR) (i v : Nat) : MBR := ⟨t.bytes.set i v⟩

/-- `readLittleEndianUINT32`: little-endian assembly of four bytes. -/
def readLittleEndianUINT32 (b0 b1 b2 b3 : Nat) : Nat :=
  b0 + b1 * 2 ^ 8 + b2 * 2 ^ 16 + b3 * 2 ^ 24

/-- Offset of partition entry `num` (numbered 1..4) inside the sector:
`mbrFirstPartEntryOffset + (num-1)*mbrPartEntrySize`. -/
def partEntryStart (num : Nat) : Nat :=
  mbrFirstPartEntryOffset + (num - 1) * mbrPartEntrySize

/-- Byte `off` of partition entry `num` (the partition view aliases the
owning table's buffer, so a view read is a table read at this offset). -/
def partByte (t : MBR) (num off : Nat) : Nat :=
  getByte t (partEntryStart num + off)

/-- `MBRPartition.GetLBAStart`: little-endian uint32 at entry offset 8. -/
def MBR.GetLBAStart (t : MBR) (num : Nat) : Nat :=
  readLittleEndianUINT32 (partByte t num partitionLBAStartOffset)
    (partByte t num (partitionLBAStartOffset + 1))
    (partByte t num (partitionLBAStartOffset + 2))
    (partByte t num (partitionLBAStartOffset + 3))

/-- `MBRPartition.GetLBALen`: little-endian uint32 at entry offset 12. -/
def MBR.GetLBALen (t : MBR) (num : Nat) : Nat :=
  readLittleEndianUINT32 (partByte t num partitionLBALengthOffset)
    (partByte t num (partitionLBALengthOffset + 1))
    (partByte t num (partitionLBALengthOffset + 2))
    (partByte t num (partitionLBALengthOffset + 3))

/-- `MBRPartition.GetType`: the type byte at entry offset 4. -/
def MBR.GetType (t : MBR) (num : Nat) : Nat :=
  partByte t num partitionTypeOffset

/-- `MBRPartition.IsEmpty`: the type byte equals `PART_EMPTY` (0). -/
def MBR.IsEmpty (t : MBR) (num : Nat) : Bool :=
  t.GetType num == PART_EMPTY

/-- `MBRPartition.IsBootable`: the bootable byte equals 0x80. -/
def MBR.IsBootable (t : MBR) (num : Nat) : Bool :=
  partByte t num partitionBootableOffset == partitionBootableValue

/-- `MBRPartition.GetLBALast`: `uint64(start) + uint64(len) - 1` in uint64
arithmetic; the Go function panics when the result exceeds `0xFFFFFFFF`,
modelled here as `none`. -/
def MBR.GetLBALast (t : MBR) (num : Nat) : Option Nat :=
  let last := (t.GetLBAStart num + t.GetLBALen num + (2 ^ 64 - 1)) % 2 ^ 64
  if last > 0xFFFFFFFF then none else some last

/-- Body of `MBR.Check`'s outer loop for one entry index `l`: the
out-of-bounds last-sector rule (with the protective-MBR exception for
entry 1 of type GPT and `start + length = 2^32`), then the bootable-byte
rule, then the pairwise intersection rule over the other entries. -/
def checkPart (t : MBR) (l : Nat) : Option MBRError :=
  if t.IsEmpty l then none
  else if t.GetLBAStart l + t.GetLBALen l > 0xFFFFFFFF ∧
      ¬(l = partitionNumFirst ∧ t.GetLBAStart l + t.GetLBALen l = 0x100000000 ∧
        t.GetType l = PART_GPT) then
    some .partitionLastSectorHigh
  else if ¬(partByte t l partitionBootableOffset = partitionBootableValue) ∧
      ¬(partByte t l partitionBootableOffset = partitionNonBootableValue) then
    some .partitionBootFlag
  else if ∃ r ∈ List.range' partitionNumFirst partitionNumLast,
      r ≠ l ∧ t.IsEmpty r = false ∧
      t.GetLBAStart r < t.GetLBAStart l ∧
      t.GetLBAStart l < t.GetLBAStart r + t.GetLBALen r then
    some .partitionsIntersection
  else none

/-- First error produced by the entry scan, in scan order (the Go loop
returns the first failing rule's error). -/
def firstSome : List (Option MBRError) → Option MBRError
  | [] => none
  | some e :: _ => some e
  | none :: rest => firstSome rest

/-- `MBR.Check`: the validator.  Signature first, then the entries in
order 1..4, each entry's rules in source order. -/
def MBR.Check (t : MBR) : Option MBRError :=
  if getByte t mbrSignOffset = 0x55 ∧ getByte t (mbrSignOffset + 1) = 0xAA then
    firstSome ((List.range' partitionNumFirst partitionNumLast).map (checkPart t))
  else some .badMbrSign

/-- `MBR.FixSignature`: unconditionally write 0x55, 0xAA at offsets 510, 511. -/
def MBR.FixSignature (t : MBR) : MBR :=
  setByte (setByte t mbrSignOffset 0x55) (mbrSignOffset + 1) 0xAA

/-- `MBR.IsGPT`: some entry (1..4) has type `PART_GPT` or `PART_HYBRID_GPT`. -/
def MBR.IsGPT (t : MBR) : Bool :=
  decide (∃ n ∈ List.range' partitionNumFirst partitionNumLast,
    t.GetType n = PART_GPT ∨ t.GetType n = PART_HYBRID_GPT)

/-- `Read`: allocate a zeroed 512-byte buffer and issue a single
`disk.Read(this.bytes)` call, propagating only the reader's own error —
the byte count is discarded.  For a bounded byte source holding `n` bytes,
that single call copies `min n 512` bytes into the buffer and, per the
`io.Reader` contract of bounded readers (`bytes.Reader`, `bytes.Buffer`,
files), returns a nil error whenever `n ≥ 1` and the `io.EOF` sentinel when
the source is already empty.  So: empty source — the table plus the
propagated `ioEOF`; otherwise — the table (zero-padded past the copied
bytes) plus the result of `Check` on it.  No short-read error exists on any
path. -/
def ReadMBR (disk : List Nat) : MBR × Option MBRError :=
  let t : MBR := ⟨disk.take mbrSize ++ List.replicate (mbrSize - disk.length) 0⟩
  if disk.length = 0 then (t, some .ioEOF) else (t, t.Check)

/-- `MBR.Write`: emit all 512 buffer bytes verbatim to the byte sink. -/
def MBR.Write (t : MBR) : List Nat := t.bytes

/-- `writeLittleEndianUINT32` applied at buffer offset `off`: store the
four little-endian bytes of `v` (a uint32 value). -/
def writeLE32At (t : MBR) (off v : Nat) : MBR :=
  setByte (setByte (setByte (setByte t off (v % 2 ^ 8))
    (off + 1) (v / 2 ^ 8 % 2 ^ 8))
    (off + 2) (v / 2 ^ 16 % 2 ^ 8))
    (off + 3) (v / 2 ^ 24 % 2 ^ 8)

/-- `MBRPartition.SetType`. -/
def MBR.SetType (t : MBR) (num ty : Nat) : MBR :=
  setByte t (partEntryStart num + partitionTypeOffset) ty

/-- `MBRPartition.SetLBAStart`. -/
def MBR.SetLBAStart (t : MBR) (num v : Nat) : MBR :=
  writeLE32At t (partEntryStart num + partitionLBAStartOffset) v

/-- `MBRPartition.SetLBALen`. -/
def MBR.SetLBALen (t : MBR) (num v : Nat) : MBR :=
  writeLE32At t (partEntryStart num + partitionLBALengthOffset) v

/-- The entry-1 block of `MakeProtective`: set type to GPT, LBA start to 1,
LBA length to `len`, and clear the bootable byte, in source order. -/
def protPartOne (t : MBR) (len : Nat) : MBR :=
  setByte (((t.SetType partitionNumFirst PART_GPT).SetLBAStart partitionNumFirst 1).SetLBALen
      partitionNumFirst len)
    (partEntryStart partitionNumFirst + partitionBootableOffset) partitionNonBootableValue

/-- The zero-the-other-partitions block of `MakeProtective` for one entry:
type, start and length to 0 and the bootable byte cleared. -/
def zeroPart (t : MBR) (num : Nat) : MBR :=
  setByte (((t.SetType num PART_EMPTY).SetLBAStart num 0).SetLBALen num 0)
    (partEntryStart num + partitionBootableOffset) partitionNonBootableValue

/-- The whole mutation block at the end of `MakeProtective`: entry 1 set to
the protective partition with length `len`, then entries 2..4 zeroed. -/
def protTable (t : MBR) (len : Nat) : MBR :=
  zeroPart (zeroPart (zeroPart (protPartOne t len) 2) 3) 4

/-- `MBR.MakeProtective sectorSize diskSize pType`: rewrite the table into a
GPT protective MBR.  Returns the (possibly partially) mutated table and the
error.  `diskSize`, and the division, follow Go uint64 arithmetic:
`actual = diskSize/sectorSize - 1` wraps modulo `2^64`. -/
def MBR.MakeProtective (t : MBR) (sectorSize diskSize : Nat) (pType : Int) :
    MBR × Option MBRError :=
  if diskSize % sectorSize ≠ 0 then (t, some .diskSizeNotEvenSectors)
  else
    let t1 := t.FixSignature
    if pType = DiskSizeType then
      let actual := (diskSize / sectorSize + (2 ^ 64 - 1)) % 2 ^ 64
      let ptLBALen := if actual > 0xFFFFFFFF then 0xFFFFFFFF else actual
      (protTable t1 ptLBALen, none)
    else if pType = MaxSizeType ∨ pType = DefaultProtectiveType then
      (protTable t1 0xFFFFFFFF, none)
    else (t1, some .invalidProtectiveType)

/-- The all-zero 512-byte table (as built by `Read` from a zero source). -/
def zeroTable : MBR := ⟨List.replicate 512 0⟩

/-- An all-zero table whose byte 0 (boot-code region) is 7: differs from
`zeroTable` only below offset 446. -/
def tableNoise : MBR := setByte zeroTable 0 7

/-- The zero table with only the signature made valid: a valid table with
all four entries empty. -/
def sigOnlyTable : MBR := zeroTable.FixSignature

/-- Concrete table with a bad (zero) signature and a non-empty entry 2 of
type 0x83 with `start = 0xFFFFFFFF` and `length = 2`, so its 64-bit
`start + length` is out of bounds and entry 2 is not the protective
exception. -/
def tableHighNoSig : MBR :=
  ⟨List.replicate 512 0 |>.set 466 0x83 |>.set 470 0xFF |>.set 471 0xFF
    |>.set 472 0xFF |>.set 473 0xFF |>.set 474 2⟩

/-- Concrete table with a bad (zero) signature, entry 1 of type 0x83
occupying `[5, 105)` and entry 2 of type 0x83 starting at 10 with length 5:
entry 2's start falls strictly inside entry 1's range. -/
def tableIntersectNoSig : MBR :=
  ⟨List.replicate 512 0 |>.set 450 0x83 |>.set 454 5 |>.set 458 100
    |>.set 466 0x83 |>.set 470 10 |>.set 474 5⟩

/-- Concrete table with a bad (zero) signature and a non-empty entry 1 of
type 0x83 whose bootable byte is the invalid value 1. -/
def tableBadBootNoSig : MBR :=
  ⟨List.replicate 512 0 |>.set 450 0x83 |>.set 446 1⟩

/-- A bounded byte source holding only 100 (zero) bytes — fewer than the
512 an MBR needs. -/
def shortSource : List Nat := List.replicate 100 0

/-! ### Basic buffer lemmas -/

theorem length_setByte (t : MBR) (i v : Nat) :
    (setByte t i v).bytes.length = t.bytes.length := by
  simp [setByte]

theorem getByte_setByte (t : MBR) (i v j : Nat) :
    getByte (setByte t i v) j =
      if i = j ∧ j < t.bytes.length then v else getByte t j := by
  unfold getByte setByte
  by_cases hij : i = j
  · subst hij
    by_cases hlt : i < t.bytes.length
    · simp [List.getElem?_set_self hlt, hlt]
    · rw [List.set_eq_of_length_le (Nat.le_of_not_lt hlt)]
      simp [hlt]
  · simp [List.getElem?_set_ne hij, hij]

theorem length_fixSignature (t : MBR) :
    t.FixSignature.bytes.length = t.bytes.length := by
  simp [MBR.FixSignature, length_setByte]

theorem getByte_fixSignature (t : MBR) (i : Nat) :
    getByte t.FixSignature i =
      if 511 = i ∧ i < t.bytes.length then 0xAA
      else if 510 = i ∧ i < t.bytes.length then 0x55
      else getByte t i := by
  simp only [MBR.FixSignature, mbrSignOffset, getByte_setByte, length_setByte]

/-! ### The entry scan: first-error structure -/

theorem firstSome_four (a b c d : Option MBRError) (e : MBRError) :
    firstSome [a, b, c, d] = some e ↔
      a = some e ∨ (a = none ∧ b = some e) ∨
      (a = none ∧ b = none ∧ c = some e) ∨
      (a = none ∧ b = none ∧ c = none ∧ d = some e) := by
  cases a <;> cases b <;> cases c <;> cases d <;> simp [firstSome]

theorem firstSome_four_none (a b c d : Option MBRError) :
    firstSome [a, b, c, d] = none ↔
      a = none ∧ b = none ∧ c = none ∧ d = none := by
  cases a <;> cases b <;> cases c <;> cases d <;> simp [firstSome]

theorem range_one_four : List.range' partitionNumFirst partitionNumLast = [1, 2, 3, 4] := rfl

theorem check_eq_some_iff (t : MBR) (e : MBRError) (he : e ≠ .badMbrSign) :
    t.Check = some e ↔
      (getByte t 510 = 0x55 ∧ getByte t 511 = 0xAA) ∧
      ∃ i, 1 ≤ i ∧ i ≤ 4 ∧ (∀ j, 1 ≤ j → j < i → checkPart t j = none) ∧
        checkPart t i = some e := by
  unfold MBR.Check
  rw [range_one_four]
  simp only [List.map_cons, List.map_nil, mbrSignOffset]
  split
  case isTrue hsig =>
    rw [firstSome_four]
    simp only [hsig, true_and]
    constructor
    · rintro (h1 | ⟨h1, h2⟩ | ⟨h1, h2, h3⟩ | ⟨h1, h2, h3, h4⟩)
      · exact ⟨1, le_refl 1, by omega, fun j hj1 hj2 => absurd hj2 (by omega), h1⟩
      · refine ⟨2, by omega, by omega, fun j hj1 hj2 => ?_, h2⟩
        interval_cases j
        exact h1
      · refine ⟨3, by omega, by omega, fun j hj1 hj2 => ?_, h3⟩
        interval_cases j
        · exact h1
        · exact h2
      · refine ⟨4, by omega, by omega, fun j hj1 hj2 => ?_, h4⟩
        interval_cases j
        · exact h1
        · exact h2
        · exact h3
    · rintro ⟨i, hi1, hi4, hprior, hcp⟩
      interval_cases i
      · exact Or.inl hcp
      · exact Or.inr (Or.inl ⟨hprior 1 (by omega) (by omega), hcp⟩)
      · exact Or.inr (Or.inr (Or.inl
          ⟨hprior 1 (by omega) (by omega), hprior 2 (by omega) (by omega), hcp⟩))
      · exact Or.inr (Or.inr (Or.inr
          ⟨hprior 1 (by omega) (by omega), hprior 2 (by omega) (by omega),
            hprior 3 (by omega) (by omega), hcp⟩))
  case isFalse hsig =>
    constructor
    · intro h
      injection h with h
      exact absurd h.symm he
    · rintro ⟨hs, -⟩
      exact absurd hs hsig

theorem check_eq_none_iff (t : MBR) :
    t.Check = none ↔
      (getByte t 510 = 0x55 ∧ getByte t 511 = 0xAA) ∧
      ∀ l, 1 ≤ l → l ≤ 4 → checkPart t l = none := by
  unfold MBR.Check
  rw [range_one_four]
  simp only [List.map_cons, List.map_nil, mbrSignOffset]
  split
  case isTrue hsig =>
    rw [firstSome_four_none]
    simp only [hsig, true_and]
    constructor
    · rintro ⟨h1, h2, h3, h4⟩ l hl1 hl4
      interval_cases l <;> assumption
    · intro h
      exact ⟨h 1 (by omega) (by omega), h 2 (by omega) (by omega),
        h 3 (by omega) (by omega), h 4 (by omega) (by omega)⟩
  case isFalse hsig =>
    simp only [reduceCtorEq, false_iff]
    rintro ⟨hs, -⟩
    exact absurd hs hsig

theorem bex_range_iff (p : Nat → Prop) :
    (∃ r ∈ List.range' partitionNumFirst partitionNumLast, p r) ↔
      ∃ r, 1 ≤ r ∧ r ≤ 4 ∧ p r := by
  rw [range_one_four]
  constructor
  · rintro ⟨r, hr, hp⟩
    have hr' : r = 1 ∨ r = 2 ∨ r = 3 ∨ r = 4 := by simpa using hr
    exact ⟨r, by omega, by omega, hp⟩
  · rintro ⟨r, h1, h4, hp⟩
    refine ⟨r, ?_, hp⟩
    interval_cases r <;> decide

theorem checkPart_eq_lastHigh_iff (t : MBR) (l : Nat) :
    checkPart t l = some .partitionLastSectorHigh ↔
      t.IsEmpty l = false ∧
      0xFFFFFFFF < t.GetLBAStart l + t.GetLBALen l ∧
      ¬(l = 1 ∧ t.GetLBAStart l + t.GetLBALen l = 0x100000000 ∧
        t.GetType l = 0xEE) := by
  unfold checkPart
  simp only [partitionNumFirst, partitionBootableOffset, partitionBootableValue,
    partitionNonBootableValue, PART_GPT]
  split_ifs with h1 h2 h3 h4
  · simp [h1]
  · exact iff_of_true rfl ⟨by simpa using h1, h2.1, h2.2⟩
  · exact iff_of_false (by decide) fun h => h2 ⟨h.2.1, h.2.2⟩
  · exact iff_of_false (by decide) fun h => h2 ⟨h.2.1, h.2.2⟩
  · exact iff_of_false (by decide) fun h => h2 ⟨h.2.1, h.2.2⟩

theorem checkPart_eq_intersect_iff (t : MBR) (l : Nat) :
    checkPart t l = some .partitionsIntersection ↔
      t.IsEmpty l = false ∧
      ¬(0xFFFFFFFF < t.GetLBAStart l + t.GetLBALen l ∧
        ¬(l = 1 ∧ t.GetLBAStart l + t.GetLBALen l = 0x100000000 ∧
          t.GetType l = 0xEE)) ∧
      (partByte t l 0 = 0x80 ∨ partByte t l 0 = 0) ∧
      ∃ r, 1 ≤ r ∧ r ≤ 4 ∧ r ≠ l ∧ t.IsEmpty r = false ∧
        t.GetLBAStart r < t.GetLBAStart l ∧
        t.GetLBAStart l < t.GetLBAStart r + t.GetLBALen r := by
  unfold checkPart
  simp only [partitionNumFirst, partitionBootableOffset, partitionBootableValue,
    partitionNonBootableValue, PART_GPT]
  split_ifs with h1 h2 h3 h4
  · simp [h1]
  · exact iff_of_false (by decide) fun h => h.2.1 h2
  · exact iff_of_false (by decide) fun h => h.2.2.1.elim h3.1 h3.2
  · exact iff_of_true rfl
      ⟨by simpa using h1, h2, by tauto, (bex_range_iff _).mp h4⟩
  · exact iff_of_false (by decide) fun h => h4 ((bex_range_iff _).mpr h.2.2.2)

/-- Claim C1, counterexample: `tableHighNoSig` has a non-empty entry 2 with
`start + length > 0xFFFFFFFF` that is not the protective exception, yet
`Check` fails with `badMbrSign` (the signature rule fires first), not with
`partitionLastSectorHigh` as the claim requires. -/
theorem C1_counterexample :
    MBR.IsEmpty tableHighNoSig 2 = false ∧
    0xFFFFFFFF < MBR.GetLBAStart tableHighNoSig 2 + MBR.GetLBALen tableHighNoSig 2 ∧
    ¬(2 = 1 ∧
      MBR.GetLBAStart tableHighNoSig 2 + MBR.GetLBALen tableHighNoSig 2 = 0x100000000 ∧
      MBR.GetType tableHighNoSig 2 = 0xEE) ∧
    MBR.Check tableHighNoSig = some .badMbrSign ∧
    MBR.Check tableHighNoSig ≠ some .partitionLastSectorHigh := by
  decide

/-- Claim C1, amended: `Check` returns `partitionLastSectorHigh` exactly when
the signature is valid and the first entry index at which the scan fails is a
non-empty entry whose 64-bit `start + length` exceeds `0xFFFFFFFF`, except
when that entry is entry 1 of type GPT (0xEE) with `start + length`
exactly `0x100000000` (which the overflow rule explicitly permits). -/
theorem C1_lastSectorHigh_characterization (t : MBR) :
    t.Check = some .partitionLastSectorHigh ↔
      (getByte t 510 = 0x55 ∧ getByte t 511 = 0xAA) ∧
      ∃ i, 1 ≤ i ∧ i ≤ 4 ∧ (∀ j, 1 ≤ j → j < i → checkPart t j = none) ∧
        t.IsEmpty i = false ∧
        0xFFFFFFFF < t.GetLBAStart i + t.GetLBALen i ∧
        ¬(i = 1 ∧ t.GetLBAStart i + t.GetLBALen i = 0x100000000 ∧
          t.GetType i = 0xEE) := by
  rw [check_eq_some_iff t _ (by decide)]
  refine and_congr_right fun _ => exists_congr fun i => ?_
  rw [checkPart_eq_lastHigh_iff]

/-- Claim C2, counterexample: in `tableIntersectNoSig` the ordered pair
(l = entry 2, r = entry 1) of distinct non-empty entries satisfies
`start(l) > start(r)` and `start(l) < start(r) + length(r)`, yet `Check`
reports `badMbrSign` (the signature rule fires first), not
`partitionsIntersection` as the claim's "exactly when" requires. -/
theorem C2_counterexample :
    MBR.IsEmpty tableIntersectNoSig 1 = false ∧
    MBR.IsEmpty tableIntersectNoSig 2 = false ∧
    MBR.GetLBAStart tableIntersectNoSig 1 < MBR.GetLBAStart tableIntersectNoSig 2 ∧
    MBR.GetLBAStart tableIntersectNoSig 2 <
      MBR.GetLBAStart tableIntersectNoSig 1 + MBR.GetLBALen tableIntersectNoSig 1 ∧
    MBR.Check tableIntersectNoSig = some .badMbrSign ∧
    MBR.Check tableIntersectNoSig ≠ some .partitionsIntersection := by
  decide

/-- Claim C2, amended: `Check` reports `partitionsIntersection` exactly when
the signature is valid and the first entry index `l` at which the scan fails
is a non-empty entry that passes the last-sector and boot-flag rules and
whose start falls strictly inside the occupied range of some other non-empty
entry `r` (`start(l) > start(r)` and `start(l) < start(r) + length(r)`); and
a pair of entries with identical LBA start values never satisfies the
strict-intersection condition in either role. -/
theorem C2_partitionsIntersect_characterization :
    (∀ t : MBR, t.Check = some .partitionsIntersection ↔
      (getByte t 510 = 0x55 ∧ getByte t 511 = 0xAA) ∧
      ∃ l, 1 ≤ l ∧ l ≤ 4 ∧ (∀ j, 1 ≤ j → j < l → checkPart t j = none) ∧
        t.IsEmpty l = false ∧
        ¬(0xFFFFFFFF < t.GetLBAStart l + t.GetLBALen l ∧
          ¬(l = 1 ∧ t.GetLBAStart l + t.GetLBALen l = 0x100000000 ∧
            t.GetType l = 0xEE)) ∧
        (partByte t l 0 = 0x80 ∨ partByte t l 0 = 0) ∧
        ∃ r, 1 ≤ r ∧ r ≤ 4 ∧ r ≠ l ∧ t.IsEmpty r = false ∧
          t.GetLBAStart r < t.GetLBAStart l ∧
          t.GetLBAStart l < t.GetLBAStart r + t.GetLBALen r) ∧
    (∀ (t : MBR) (l r : Nat), t.GetLBAStart l = t.GetLBAStart r →
      ¬(t.GetLBAStart r < t.GetLBAStart l ∧
        t.GetLBAStart l < t.GetLBAStart r + t.GetLBALen r)) := by
  constructor
  · intro t
    rw [check_eq_some_iff t _ (by decide)]
    refine and_congr_right fun _ => exists_congr fun l => ?_
    rw [checkPart_eq_intersect_iff]
  · rintro t l r heq ⟨hlt, -⟩
    omega

theorem checkPart_ne_badSign (t : MBR) (l : Nat) :
    checkPart t l ≠ some .badMbrSign := by
  unfold checkPart
  split_ifs <;> simp

/-- Claim C4, counterexample: `tableBadBootNoSig` has a bad signature (so
`Check` fails with `badMbrSign` as the claim's first half says), but after
`FixSignature` the table still fails `Check` — with `partitionBootFlag` —
because entry 1 carries the invalid bootable byte 1; the claim's "check()
succeeds after fixSignature()" is false for it. -/
theorem C4_counterexample :
    getByte tableBadBootNoSig 510 ≠ 0x55 ∧
    MBR.Check tableBadBootNoSig = some .badMbrSign ∧
    MBR.Check tableBadBootNoSig.FixSignature = some .partitionBootFlag ∧
    MBR.Check tableBadBootNoSig.FixSignature ≠ none := by
  decide

/-- Claim C4, amended: a 512-byte buffer whose signature bytes are not
{0x55, 0xAA} fails `Check` with `badMbrSign`; after `FixSignature` (which
changes only bytes 510 and 511) the table never fails with `badMbrSign`
again, and it passes `Check` if and only if every entry passes the
per-entry rules. -/
theorem C4_badSignature (t : MBR) (hlen : t.bytes.length = 512)
    (hsig : ¬(getByte t 510 = 0x55 ∧ getByte t 511 = 0xAA)) :
    t.Check = some .badMbrSign ∧
    t.FixSignature.Check ≠ some .badMbrSign ∧
    (∀ i, i ≠ 510 → i ≠ 511 → getByte t.FixSignature i = getByte t i) ∧
    (t.FixSignature.Check = none ↔
      ∀ l, 1 ≤ l → l ≤ 4 → checkPart t.FixSignature l = none) := by
  have h510 : getByte t.FixSignature 510 = 0x55 := by
    rw [getByte_fixSignature]
    simp [hlen]
  have h511 : getByte t.FixSignature 511 = 0xAA := by
    rw [getByte_fixSignature]
    simp [hlen]
  refine ⟨?_, ?_, ?_, ?_⟩
  · simp only [MBR.Check, mbrSignOffset]
    rw [if_neg hsig]
  · simp only [MBR.Check, mbrSignOffset, Nat.reduceAdd]
    rw [if_pos ⟨h510, h511⟩, range_one_four]
    simp only [List.map_cons, List.map_nil]
    intro h
    rw [firstSome_four] at h
    rcases h with h | ⟨-, h⟩ | ⟨-, -, h⟩ | ⟨-, -, -, h⟩ <;>
      exact checkPart_ne_badSign _ _ h
  · intro i hi0 hi1
    rw [getByte_fixSignature]
    rw [if_neg fun h => hi1 h.1.symm, if_neg fun h => hi0 h.1.symm]
  · rw [check_eq_none_iff]
    simp [h510, h511]

/-- Claim C4 witness: the all-zero table has a bad signature, and the
amended theorem applies to it. -/
theorem C4_witness : MBR.Check zeroTable = some .badMbrSign :=
  (C4_badSignature zeroTable (by simp [zeroTable]) (by decide)).1

/-- Claim C5, code bug: `Read` discards the byte count of its single
`disk.Read` call and only propagates the reader's own error, so the
100-byte source — which can supply fewer than 512 bytes — produces no
short-read error at all: the read itself succeeds and `Read` returns the
`Check` result of the zero-padded table, `badMbrSign`, together with the
constructed 512-byte table.  The claim (and the spec's "Fails with
ShortRead if fewer bytes are available") describes the evident intent
(`io.ReadFull`); the code does not implement it. -/
theorem C5_shortRead_bug :
    shortSource.length = 100 ∧
    (ReadMBR shortSource).2 = some .badMbrSign ∧
    (ReadMBR shortSource).2 ≠ some .shortRead ∧
    (ReadMBR shortSource).1.bytes.length = 512 ∧
    (ReadMBR shortSource).1.bytes =
      shortSource.take 512 ++ List.replicate (512 - shortSource.length) 0 := by
  decide

/-- Claim C6: `GetLBALast` panics (modelled as `none`) exactly when the
uint64 value of `start + length - 1` exceeds `0xFFFFFFFF`; and whenever
`start + length - 1 ≤ 0xFFFFFFFF` with the sum not underflowing (not both
`start = 0` and `length = 0`), it returns `start + length - 1` and the
panic branch is unreachable. -/
theorem C6_getLBALast :
    (∀ (u : MBR) (m : Nat), u.GetLBALast m = none ↔
      0xFFFFFFFF < (u.GetLBAStart m + u.GetLBALen m + (2 ^ 64 - 1)) % 2 ^ 64) ∧
    (∀ (t : MBR) (num : Nat),
      t.GetLBAStart num + t.GetLBALen num - 1 ≤ 0xFFFFFFFF →
      ¬(t.GetLBAStart num = 0 ∧ t.GetLBALen num = 0) →
      t.GetLBALast num = some (t.GetLBAStart num + t.GetLBALen num - 1)) := by
  constructor
  · intro u m
    simp only [MBR.GetLBALast]
    split <;> simp_all
  · intro t num h1 h2
    simp only [MBR.GetLBALast]
    have hmod : (t.GetLBAStart num + t.GetLBALen num + (2 ^ 64 - 1)) % 2 ^ 64 =
        t.GetLBAStart num + t.GetLBALen num - 1 := by
      omega
    rw [hmod, if_neg (by omega)]

/-- Claim C6 witness: entry 1 of `tableIntersectNoSig` has start 5 and
length 100, so its last sector is 104. -/
theorem C6_witness : MBR.GetLBALast tableIntersectNoSig 1 = some 104 := by
  have h := C6_getLBALast.2 tableIntersectNoSig 1 (by decide) (by decide)
  simpa using h

/-- Claim C7: `MakeProtective` fails with `diskSizeNotEvenSectors` exactly
when `diskSize` is not a multiple of `sectorSize`, and on that failure path
the table is returned unchanged, byte for byte. -/
theorem C7_diskSizeNotEven (t : MBR) (ss ds : Nat) (p : Int) (_hss : 0 < ss) :
    ((t.MakeProtective ss ds p).2 = some .diskSizeNotEvenSectors ↔ ds % ss ≠ 0) ∧
    (ds % ss ≠ 0 → (t.MakeProtective ss ds p).1 = t) := by
  constructor
  · simp only [MBR.MakeProtective]
    split_ifs with h1 h2 h3 <;> simp_all
  · intro hne
    simp only [MBR.MakeProtective]
    rw [if_pos hne]

/-- Claim C7 witness: disk size 511 is not a multiple of sector size 512 and
the zero table is returned untouched. -/
theorem C7_witness :
    (zeroTable.MakeProtective 512 511 0).2 = some .diskSizeNotEvenSectors ∧
    (zeroTable.MakeProtective 512 511 0).1 = zeroTable := by
  have h := C7_diskSizeNotEven zeroTable 512 511 0 (by decide)
  exact ⟨h.1.mpr (by decide), h.2 (by decide)⟩

/-- Claim C8, counterexample: calling `MakeProtective` on the all-zero table
with a divisible disk size and the invalid protective type 3 fails with
`invalidProtectiveType`, but entry 1 is untouched: its type byte is still 0
(empty), not the GPT type the claim says has already been set, and its LBA
start is still 0. -/
theorem C8_counterexample :
    (zeroTable.MakeProtective 512 512 3).2 = some .invalidProtectiveType ∧
    MBR.GetType (zeroTable.MakeProtective 512 512 3).1 1 = 0 ∧
    MBR.GetType (zeroTable.MakeProtective 512 512 3).1 1 ≠ PART_GPT ∧
    MBR.GetLBAStart (zeroTable.MakeProtective 512 512 3).1 1 = 0 := by
  decide

/-- Claim C8, amended: with `diskSize` divisible by `sectorSize` and a
protective type outside {Default, MaxSize, DiskSize}, `MakeProtective`
fails with `invalidProtectiveType` after fixing the signature but before
any entry mutation: the result is exactly `FixSignature` of the input, so
every byte other than 510 and 511 — in particular all of entry 1 — is
unchanged. -/
theorem C8_invalidProtectiveType (t : MBR) (ss ds : Nat) (p : Int)
    (hdiv : ds % ss = 0) (h1 : p ≠ DiskSizeType) (h2 : p ≠ MaxSizeType)
    (h0 : p ≠ DefaultProtectiveType) :
    (t.MakeProtective ss ds p).2 = some .invalidProtectiveType ∧
    (t.MakeProtective ss ds p).1 = t.FixSignature ∧
    ∀ i, i ≠ 510 → i ≠ 511 →
      getByte (t.MakeProtective ss ds p).1 i = getByte t i := by
  have hres : t.MakeProtective ss ds p = (t.FixSignature, some .invalidProtectiveType) := by
    simp only [MBR.MakeProtective]
    rw [if_neg (by simpa using hdiv), if_neg h1,
      if_neg (by rintro (h | h); exacts [h2 h, h0 h])]
  refine ⟨by rw [hres], by rw [hres], ?_⟩
  intro i hi0 hi1
  rw [hres]
  rw [getByte_fixSignature]
  rw [if_neg fun h => hi1 h.1.symm, if_neg fun h => hi0 h.1.symm]

/-- Claim C8 witness: the amended theorem applied to the all-zero table with
protective type 3. -/
theorem C8_witness :
    (zeroTable.MakeProtective 512 512 3).2 = some .invalidProtectiveType :=
  (C8_invalidProtectiveType zeroTable 512 512 3 (by decide) (by decide)
    (by decide) (by decide)).1

theorem checkPart_eq_bootFlag_iff (t : MBR) (l : Nat) :
    checkPart t l = some .partitionBootFlag ↔
      t.IsEmpty l = false ∧
      ¬(0xFFFFFFFF < t.GetLBAStart l + t.GetLBALen l ∧
        ¬(l = 1 ∧ t.GetLBAStart l + t.GetLBALen l = 0x100000000 ∧
          t.GetType l = 0xEE)) ∧
      ¬(partByte t l 0 = 0x80) ∧ ¬(partByte t l 0 = 0) := by
  unfold checkPart
  simp only [partitionNumFirst, partitionBootableOffset, partitionBootableValue,
    partitionNonBootableValue, PART_GPT]
  split_ifs with h1 h2 h3 h4
  · simp [h1]
  · exact iff_of_false (by decide) fun h => h.2.1 h2
  · exact iff_of_true rfl ⟨by simpa using h1, h2, h3.1, h3.2⟩
  · exact iff_of_false (by decide) fun h => h3 ⟨h.2.2.1, h.2.2.2⟩
  · exact iff_of_false (by decide) fun h => h3 ⟨h.2.2.1, h.2.2.2⟩

theorem checkPart_eq_none_iff (t : MBR) (l : Nat) :
    checkPart t l = none ↔
      t.IsEmpty l = true ∨
      (¬(0xFFFFFFFF < t.GetLBAStart l + t.GetLBALen l ∧
          ¬(l = 1 ∧ t.GetLBAStart l + t.GetLBALen l = 0x100000000 ∧
            t.GetType l = 0xEE)) ∧
        (partByte t l 0 = 0x80 ∨ partByte t l 0 = 0) ∧
        ¬∃ r, 1 ≤ r ∧ r ≤ 4 ∧ r ≠ l ∧ t.IsEmpty r = false ∧
          t.GetLBAStart r < t.GetLBAStart l ∧
          t.GetLBAStart l < t.GetLBAStart r + t.GetLBALen r) := by
  unfold checkPart
  simp only [partitionNumFirst, partitionBootableOffset, partitionBootableValue,
    partitionNonBootableValue, PART_GPT]
  split_ifs with h1 h2 h3 h4
  · exact iff_of_true rfl (Or.inl h1)
  · exact iff_of_false (by decide) fun hh => hh.elim h1 fun hr => hr.1 h2
  · exact iff_of_false (by decide) fun hh =>
      hh.elim h1 fun hr => hr.2.1.elim h3.1 h3.2
  · exact iff_of_false (by decide) fun hh =>
      hh.elim h1 fun hr => hr.2.2 ((bex_range_iff _).mp h4)
  · exact iff_of_true rfl (Or.inr ⟨h2, by tauto,
      fun hex => h4 ((bex_range_iff _).mpr hex)⟩)

theorem checkPart_cases (t : MBR) (l : Nat) :
    checkPart t l = none ∨ checkPart t l = some .partitionLastSectorHigh ∨
    checkPart t l = some .partitionBootFlag ∨
    checkPart t l = some .partitionsIntersection := by
  unfold checkPart
  split_ifs <;> simp

theorem MBR.eq_of_bytes_eq (a b : MBR) (h : a.bytes = b.bytes) : a = b := by
  cases a
  cases b
  cases h
  rfl

/-- Claim C9: writing a valid 512-byte table and reading the emitted bytes
back reconstructs a table whose per-entry `GetType`, `GetLBAStart`,
`GetLBALen` and `IsBootable` agree with the original's. -/
theorem C9_roundTrip (t : MBR) (num : Nat) (hlen : t.bytes.length = 512)
    (_hvalid : t.Check = none) :
    (ReadMBR t.Write).1.GetType num = t.GetType num ∧
    (ReadMBR t.Write).1.GetLBAStart num = t.GetLBAStart num ∧
    (ReadMBR t.Write).1.GetLBALen num = t.GetLBALen num ∧
    (ReadMBR t.Write).1.IsBootable num = t.IsBootable num := by
  have heq : (ReadMBR t.Write).1 = t := by
    apply MBR.eq_of_bytes_eq
    simp only [ReadMBR, MBR.Write, mbrSize]
    split <;> simp [List.take_of_length_le (le_of_eq hlen), hlen]
  rw [heq]
  exact ⟨rfl, rfl, rfl, rfl⟩

/-- Claim C9 witness: the empty-but-valid table round-trips; entry 1 agrees
field by field. -/
theorem C9_witness :
    (ReadMBR sigOnlyTable.Write).1.GetType 1 = sigOnlyTable.GetType 1 ∧
    (ReadMBR sigOnlyTable.Write).1.GetLBAStart 1 = sigOnlyTable.GetLBAStart 1 ∧
    (ReadMBR sigOnlyTable.Write).1.GetLBALen 1 = sigOnlyTable.GetLBALen 1 ∧
    (ReadMBR sigOnlyTable.Write).1.IsBootable 1 = sigOnlyTable.IsBootable 1 :=
  C9_roundTrip sigOnlyTable 1 (by decide) (by decide)

theorem length_writeLE32At (t : MBR) (off v : Nat) :
    (writeLE32At t off v).bytes.length = t.bytes.length := by
  simp [writeLE32At, length_setByte]

theorem length_protTable (t : MBR) (len : Nat) :
    (protTable t len).bytes.length = t.bytes.length := by
  simp [protTable, zeroPart, protPartOne, MBR.SetType, MBR.SetLBAStart,
    MBR.SetLBALen, length_writeLE32At, length_setByte]

theorem protTable_getByte_eq (u : MBR) (len : Nat) (h : u.bytes.length = 512) :
    getByte (protTable u len) 510 = getByte u 510 ∧
    getByte (protTable u len) 511 = getByte u 511 ∧
    (protTable u len).GetType 1 = 0xEE ∧
    (protTable u len).GetType 2 = 0 ∧
    (protTable u len).GetType 3 = 0 ∧
    (protTable u len).GetType 4 = 0 ∧
    (protTable u len).GetLBAStart 1 = 1 ∧
    (protTable u len).GetLBALen 1 = len % 2 ^ 32 ∧
    partByte (protTable u len) 1 0 = 0 := by
  refine ⟨?_, ?_, ?_, ?_, ?_, ?_, ?_, ?_, ?_⟩ <;>
    simp [protTable, zeroPart, protPartOne, MBR.SetType, MBR.SetLBAStart,
      MBR.SetLBALen, writeLE32At, MBR.GetType, MBR.GetLBAStart, MBR.GetLBALen,
      partByte, partEntryStart, getByte_setByte, length_setByte, h,
      mbrFirstPartEntryOffset, mbrPartEntrySize, partitionTypeOffset,
      partitionLBAStartOffset, partitionLBALengthOffset,
      partitionBootableOffset, partitionNonBootableValue, PART_GPT, PART_EMPTY,
      partitionNumFirst, readLittleEndianUINT32] <;>
    omega

theorem protTable_check_none (t : MBR) (len : Nat) (h : t.bytes.length = 512)
    (hle : len ≤ 0xFFFFFFFF) :
    (protTable t.FixSignature len).Check = none ∧
    (protTable t.FixSignature len).IsGPT = true := by
  have hfl : t.FixSignature.bytes.length = 512 := by
    rw [length_fixSignature, h]
  obtain ⟨g510, g511, ty1, ty2, ty3, ty4, st1, ln1, bt1⟩ :=
    protTable_getByte_eq t.FixSignature len hfl
  have hs510 : getByte (protTable t.FixSignature len) 510 = 0x55 := by
    rw [g510, getByte_fixSignature]
    simp [h]
  have hs511 : getByte (protTable t.FixSignature len) 511 = 0xAA := by
    rw [g511, getByte_fixSignature]
    simp [h]
  have ln1' : (protTable t.FixSignature len).GetLBALen 1 = len := by
    rw [ln1]
    omega
  have hem1 : (protTable t.FixSignature len).IsEmpty 1 = false := by
    simp [MBR.IsEmpty, ty1, PART_EMPTY]
  have hem2 : (protTable t.FixSignature len).IsEmpty 2 = true := by
    simp [MBR.IsEmpty, ty2, PART_EMPTY]
  have hem3 : (protTable t.FixSignature len).IsEmpty 3 = true := by
    simp [MBR.IsEmpty, ty3, PART_EMPTY]
  have hem4 : (protTable t.FixSignature len).IsEmpty 4 = true := by
    simp [MBR.IsEmpty, ty4, PART_EMPTY]
  constructor
  · rw [check_eq_none_iff]
    refine ⟨⟨hs510, hs511⟩, ?_⟩
    intro l h1 h4
    interval_cases l
    · rw [checkPart_eq_none_iff]
      refine Or.inr ⟨?_, Or.inr bt1, ?_⟩
      · rintro ⟨hgt, hne⟩
        rw [st1, ln1'] at hgt hne
        exact hne ⟨rfl, by omega, ty1⟩
      · rintro ⟨r, hr1, hr4, hrl, hre, -, -⟩
        interval_cases r
        · exact hrl rfl
        · rw [hem2] at hre
          cases hre
        · rw [hem3] at hre
          cases hre
        · rw [hem4] at hre
          cases hre
    · rw [checkPart_eq_none_iff]
      exact Or.inl hem2
    · rw [checkPart_eq_none_iff]
      exact Or.inl hem3
    · rw [checkPart_eq_none_iff]
      exact Or.inl hem4
  · simp only [MBR.IsGPT, decide_eq_true_eq]
    exact ⟨1, by decide, Or.inl ty1⟩

/-- Claim C3: a successful `MakeProtective` (disk size divisible by sector
size, protective type among Default, MaxSize and DiskSize) produces a table
that passes `Check` and for which `IsGPT` is true. -/
theorem C3_makeProtective (t : MBR) (ss ds : Nat) (p : Int)
    (hlen : t.bytes.length = 512) (_hss : 0 < ss) (hdiv : ds % ss = 0)
    (hp : p = DefaultProtectiveType ∨ p = MaxSizeType ∨ p = DiskSizeType) :
    (t.MakeProtective ss ds p).2 = none ∧
    (t.MakeProtective ss ds p).1.Check = none ∧
    (t.MakeProtective ss ds p).1.IsGPT = true := by
  simp only [MBR.MakeProtective]
  rw [if_neg (by simpa using hdiv)]
  by_cases hp1 : p = DiskSizeType
  · rw [if_pos hp1]
    have hle : (if (ds / ss + (2 ^ 64 - 1)) % 2 ^ 64 > 0xFFFFFFFF then 0xFFFFFFFF
        else (ds / ss + (2 ^ 64 - 1)) % 2 ^ 64) ≤ 0xFFFFFFFF := by
      split <;> omega
    obtain ⟨hc, hg⟩ := protTable_check_none t _ hlen hle
    exact ⟨rfl, hc, hg⟩
  · have hp' : p = MaxSizeType ∨ p = DefaultProtectiveType := by
      rcases hp with hh | hh | hh
      · exact Or.inr hh
      · exact Or.inl hh
      · exact absurd hh hp1
    rw [if_neg hp1, if_pos hp']
    obtain ⟨hc, hg⟩ := protTable_check_none t 0xFFFFFFFF hlen (le_refl _)
    exact ⟨rfl, hc, hg⟩

/-- Claim C3 witness: a DiskSize protective MBR over a 512 000 000-byte disk
with 512-byte sectors. -/
theorem C3_witness :
    (zeroTable.MakeProtective 512 512000000 DiskSizeType).2 = none ∧
    (zeroTable.MakeProtective 512 512000000 DiskSizeType).1.Check = none ∧
    (zeroTable.MakeProtective 512 512000000 DiskSizeType).1.IsGPT = true :=
  C3_makeProtective zeroTable 512 512000000 DiskSizeType (by simp [zeroTable])
    (by decide) (by decide) (Or.inr (Or.inr rfl))

/-- Claim C10: `Check` reads only bytes 446..511 of the buffer, so two
tables agreeing on that range — whatever their boot-code bytes [0, 446) —
validate identically. -/
theorem C10_check_boot_independent (t1 t2 : MBR)
    (h : ∀ i, i < 512 → 446 ≤ i → getByte t1 i = getByte t2 i) :
    t1.Check = t2.Check := by
  have hpb : ∀ num off, 1 ≤ num → num ≤ 4 → off < 16 →
      partByte t1 num off = partByte t2 num off := by
    intro num off hn1 hn4 hoff
    simp only [partByte, partEntryStart, mbrFirstPartEntryOffset, mbrPartEntrySize]
    exact h _ (by omega) (by omega)
  have hst : ∀ num, 1 ≤ num → num ≤ 4 → t1.GetLBAStart num = t2.GetLBAStart num := by
    intro num hn1 hn4
    simp only [MBR.GetLBAStart, partitionLBAStartOffset, Nat.reduceAdd]
    rw [hpb num 8 hn1 hn4 (by omega), hpb num 9 hn1 hn4 (by omega),
      hpb num 10 hn1 hn4 (by omega), hpb num 11 hn1 hn4 (by omega)]
  have hln : ∀ num, 1 ≤ num → num ≤ 4 → t1.GetLBALen num = t2.GetLBALen num := by
    intro num hn1 hn4
    simp only [MBR.GetLBALen, partitionLBALengthOffset, Nat.reduceAdd]
    rw [hpb num 12 hn1 hn4 (by omega), hpb num 13 hn1 hn4 (by omega),
      hpb num 14 hn1 hn4 (by omega), hpb num 15 hn1 hn4 (by omega)]
  have hty : ∀ num, 1 ≤ num → num ≤ 4 → t1.GetType num = t2.GetType num := by
    intro num hn1 hn4
    simp only [MBR.GetType, partitionTypeOffset]
    exact hpb num 4 hn1 hn4 (by omega)
  have hem : ∀ num, 1 ≤ num → num ≤ 4 → t1.IsEmpty num = t2.IsEmpty num := by
    intro num hn1 hn4
    simp only [MBR.IsEmpty]
    rw [hty num hn1 hn4]
  have hcp : ∀ l, 1 ≤ l → l ≤ 4 → checkPart t1 l = checkPart t2 l := by
    intro l h1 h4
    rcases checkPart_cases t1 l with hv | hv | hv | hv
    · rw [hv]
      symm
      rw [checkPart_eq_none_iff]
      rcases (checkPart_eq_none_iff t1 l).mp hv with he | ⟨hov, hbo, hni⟩
      · exact Or.inl (by rw [← hem l h1 h4]; exact he)
      · refine Or.inr ⟨?_, ?_, ?_⟩
        · rw [← hst l h1 h4, ← hln l h1 h4, ← hty l h1 h4]
          exact hov
        · rw [← hpb l 0 h1 h4 (by omega)]
          exact hbo
        · rintro ⟨r, hr1, hr4, hrl, hre, ha, hb⟩
          refine hni ⟨r, hr1, hr4, hrl, ?_, ?_, ?_⟩
          · rw [hem r hr1 hr4]
            exact hre
          · rw [hst r hr1 hr4, hst l h1 h4]
            exact ha
          · rw [hst l h1 h4, hst r hr1 hr4, hln r hr1 hr4]
            exact hb
    · rw [hv]
      symm
      rw [checkPart_eq_lastHigh_iff]
      obtain ⟨he, hgt, hne⟩ := (checkPart_eq_lastHigh_iff t1 l).mp hv
      refine ⟨?_, ?_, ?_⟩
      · rw [← hem l h1 h4]
        exact he
      · rw [← hst l h1 h4, ← hln l h1 h4]
        exact hgt
      · rw [← hst l h1 h4, ← hln l h1 h4, ← hty l h1 h4]
        exact hne
    · rw [hv]
      symm
      rw [checkPart_eq_bootFlag_iff]
      obtain ⟨he, hov, ha, hb⟩ := (checkPart_eq_bootFlag_iff t1 l).mp hv
      refine ⟨?_, ?_, ?_, ?_⟩
      · rw [← hem l h1 h4]
        exact he
      · rw [← hst l h1 h4, ← hln l h1 h4, ← hty l h1 h4]
        exact hov
      · rw [← hpb l 0 h1 h4 (by omega)]
        exact ha
      · rw [← hpb l 0 h1 h4 (by omega)]
        exact hb
    · rw [hv]
      symm
      rw [checkPart_eq_intersect_iff]
      obtain ⟨he, hov, hbo, r, hr1, hr4, hrl, hre, ha, hb⟩ :=
        (checkPart_eq_intersect_iff t1 l).mp hv
      refine ⟨?_, ?_, ?_, r, hr1, hr4, hrl, ?_, ?_, ?_⟩
      · rw [← hem l h1 h4]
        exact he
      · rw [← hst l h1 h4, ← hln l h1 h4, ← hty l h1 h4]
        exact hov
      · rw [← hpb l 0 h1 h4 (by omega)]
        exact hbo
      · rw [← hem r hr1 hr4]
        exact hre
      · rw [← hst r hr1 hr4, ← hst l h1 h4]
        exact ha
      · rw [← hst l h1 h4, ← hst r hr1 hr4, ← hln r hr1 hr4]
        exact hb
  simp only [MBR.Check, mbrSignOffset, Nat.reduceAdd, range_one_four,
    List.map_cons, List.map_nil]
  rw [h 510 (by omega) (by omega), h 511 (by omega) (by omega),
    hcp 1 (by omega) (by omega), hcp 2 (by omega) (by omega),
    hcp 3 (by omega) (by omega), hcp 4 (by omega) (by omega)]

/-- Claim C10 witness: the zero table and the table with byte 0 set to 7
agree on bytes 446..511 and validate identically. -/
theorem C10_witness : MBR.Check zeroTable = MBR.Check tableNoise :=
  C10_check_boot_independent zeroTable tableNoise (by decide)

end MbrSpec
